import Mathlib

/-!
Verification of the quiz-session engine of the endless-translating app.

Text is modelled as a list of characters (`Str`); JavaScript numbers are
modelled as exact rationals (`ℚ`), so the threshold literals 0.8 and 0.5
become 4/5 and 1/2. Fallible operations (the network transport behind
`checkGrammar`) are modelled with `Except`: an `Except.error` result is the
shallow embedding of a promise rejection propagating to the caller.
-/

namespace Endless

abbrev Str := List Char

/-- The ASCII apostrophe, U+0027. -/
def apos : Char := Char.ofNat 39

/-- The Unicode right single quotation mark, U+2019. -/
def rsquo : Char := Char.ofNat 8217

/-- Characters matched by the JavaScript regex class whitespace and by
`String.prototype.trim`. -/
def jsWhitespace (c : Char) : Bool :=
  decide (c.toNat = 9 ∨ c.toNat = 10 ∨ c.toNat = 11 ∨ c.toNat = 12 ∨ c.toNat = 13 ∨
    c.toNat = 32 ∨ c.toNat = 160 ∨ c.toNat = 5760 ∨ (8192 ≤ c.toNat ∧ c.toNat ≤ 8202) ∨
    c.toNat = 8232 ∨ c.toNat = 8233 ∨ c.toNat = 8239 ∨ c.toNat = 8287 ∨
    c.toNat = 12288 ∨ c.toNat = 65279)

/-- The uppercase-to-lowercase table for the ASCII letters. -/
def ucPairs : List (Char × Char) :=
  [( 'A', 'a'), ( 'B', 'b'), ( 'C', 'c'), ( 'D', 'd'), ( 'E', 'e'), ( 'F', 'f'),
   ( 'G', 'g'), ( 'H', 'h'), ( 'I', 'i'), ( 'J', 'j'), ( 'K', 'k'), ( 'L', 'l'),
   ( 'M', 'm'), ( 'N', 'n'), ( 'O', 'o'), ( 'P', 'p'), ( 'Q', 'q'), ( 'R', 'r'),
   ( 'S', 's'), ( 'T', 't'), ( 'U', 'u'), ( 'V', 'v'), ( 'W', 'w'), ( 'X', 'x'),
   ( 'Y', 'y'), ( 'Z', 'z')]

/-- Model of `String.prototype.toLowerCase` on the ASCII range; the engine
only ever inspects ASCII letters, apostrophes and the listed punctuation
after lowercasing, so the exotic Unicode case mappings are irrelevant here. -/
def jsToLower (c : Char) : Char :=
  match ucPairs.find? (fun p => decide (p.1 = c)) with
  | some p => p.2
  | none => c

/-- Characters kept by `tokenize`: the regex class of ASCII letters plus the
two apostrophe forms (the source strips everything else). -/
def isTokenChar (c : Char) : Bool :=
  decide ((97 ≤ c.toNat ∧ c.toNat ≤ 122) ∨ (65 ≤ c.toNat ∧ c.toNat ≤ 90) ∨
    c.toNat = 39 ∨ c.toNat = 8217)

/-- The fixed punctuation set removed by `normalizeExact`:
period, comma, bang, question mark, semicolon, colon, parens, double and
single quote. -/
def isExactPunct (c : Char) : Bool :=
  decide (c.toNat = 46 ∨ c.toNat = 44 ∨ c.toNat = 33 ∨ c.toNat = 63 ∨ c.toNat = 59 ∨
    c.toNat = 58 ∨ c.toNat = 40 ∨ c.toNat = 41 ∨ c.toNat = 34 ∨ c.toNat = 39)

/-- Decimal rendering of a number, as used by JavaScript template strings. -/
def natChars (n : Nat) : Str := (Nat.repr n).data

/-- `String.prototype.trim`. -/
def trim (l : Str) : Str :=
  ((l.dropWhile jsWhitespace).reverse.dropWhile jsWhitespace).reverse

/-- Helper for the line splitter: accumulates the current line (reversed)
and breaks at each occurrence of the regex pattern CR-LF or lone LF. -/
def splitLinesGo (cur : List Char) : List Char → List (List Char)
  | [] => [cur.reverse]
  | '\r' :: '\n' :: rest => cur.reverse :: splitLinesGo [] rest
  | '\n' :: rest => cur.reverse :: splitLinesGo [] rest
  | c :: rest => splitLinesGo (c :: cur) rest

/-- `text.split` on the line-break regex, as in `parseCorpus`. -/
def splitLines (l : Str) : List Str := splitLinesGo [] l

/-- Helper for splitting on a single separator character, JavaScript
`split` semantics (empty pieces are kept). -/
def splitSepGo (sep : Char) (cur : List Char) : List Char → List (List Char)
  | [] => [cur.reverse]
  | c :: rest =>
    if c = sep then cur.reverse :: splitSepGo sep [] rest
    else splitSepGo sep (c :: cur) rest

/-- `line.split` on a one-character separator string. -/
def splitSep (sep : Char) (l : Str) : List Str := splitSepGo sep [] l

/-- Helper for splitting on runs of whitespace, JavaScript semantics of
`split` with a one-or-more-whitespace regex: an empty piece is produced at
the start (after a leading run) and at the end (after a trailing run), but
interior runs produce a single break. `sk` records that the scanner is
inside a whitespace run. -/
def splitWsGo (sk : Bool) (cur : List Char) : List Char → List (List Char)
  | [] => if sk then [[]] else [cur.reverse]
  | c :: rest =>
    if jsWhitespace c then
      if sk then splitWsGo true [] rest
      else cur.reverse :: splitWsGo true [] rest
    else
      if sk then splitWsGo false [c] rest
      else splitWsGo false (c :: cur) rest

/-- `text.split` on the whitespace-run regex, as in `tokenize`. -/
def splitWs (l : Str) : List Str := splitWsGo false [] l

/-- One corpus record: English model answer and Japanese prompt. -/
structure CorpusPair where
  eng : Str
  jpn : Str
deriving DecidableEq

/-- The per-line loop body of `parseCorpus`: skip blank lines, require at
least four tab-separated fields, trim fields 1 and 3, require both
non-empty. -/
def parseCorpusLines : List Str → List CorpusPair
  | [] => []
  | line :: rest =>
    if trim line = [] then parseCorpusLines rest
    else
      let cols := splitSep '\t' line
      if 4 ≤ cols.length then
        let eng := trim (cols.getD 1 [])
        let jpn := trim (cols.getD 3 [])
        if eng ≠ [] ∧ jpn ≠ [] then { eng := eng, jpn := jpn } :: parseCorpusLines rest
        else parseCorpusLines rest
      else parseCorpusLines rest

/-- `parseCorpus` from the source: split the raw text into lines and keep
the valid records in order. -/
def parseCorpus (tsv : Str) : List CorpusPair := parseCorpusLines (splitLines tsv)

/-- Claim-side description of one line of `parseCorpus` input: accepted
exactly when it has at least 4 tab-separated fields and fields 1 and 3 are
non-empty after trimming. -/
def lineAccept (line : Str) : Option CorpusPair :=
  if 4 ≤ (splitSep '\t' line).length ∧ trim ((splitSep '\t' line).getD 1 []) ≠ [] ∧
      trim ((splitSep '\t' line).getD 3 []) ≠ [] then
    some
      { eng := trim ((splitSep '\t' line).getD 1 [])
        jpn := trim ((splitSep '\t' line).getD 3 []) }
  else none

/-- `randomPair`: none on an empty corpus, otherwise the element at the
random index (the random draw in [0, length) is modelled by `i % length`). -/
def randomPair (pairs : List CorpusPair) (i : Nat) : Option CorpusPair :=
  if h : pairs.length = 0 then none
  else some (pairs.get ⟨i % pairs.length, Nat.mod_lt _ (Nat.pos_of_ne_zero h)⟩)

/-- `pickNextQuestion` from the session controller. -/
def pickNextQuestion (corpus : List CorpusPair) (i : Nat) : Option CorpusPair :=
  if corpus.length = 0 then none else randomPair corpus i

/-- `normalizeExact`: lowercase, remove the fixed punctuation set, trim. -/
def normalizeExact (text : Str) : Str :=
  trim ((text.map jsToLower).filter (fun c => !(isExactPunct c)))

/-- `tokenize`: lowercase, split on whitespace runs, strip every character
that is not an ASCII letter or apostrophe, drop chunks that became empty. -/
def tokenize (text : Str) : List Str :=
  ((splitWs (text.map jsToLower)).map (fun w => w.filter isTokenChar)).filter
    (fun w => decide (w ≠ []))

/-- The claim's wording splits first into whitespace-separated chunks
(no empty chunks), then lowercases each chunk. -/
def wsChunks (text : Str) : List Str := (splitWs text).filter (fun w => decide (w ≠ []))

/-- Claim-side description of `tokenize`, following the claim's wording:
split on runs of whitespace, then per chunk lowercase, strip non-token
characters, and discard chunks that became empty. -/
def tokenizeSpec (text : Str) : List Str :=
  ((wsChunks text).map (fun w => (w.map jsToLower).filter isTokenChar)).filter
    (fun w => decide (w ≠ []))

/-- `jaccardSimilarity` from the source: both token lists are collapsed to
their distinct elements (JS `Set`), and the score is
`inter * 2 / (|A| + |B|)`, with 0 when both sets are empty. -/
def jaccardSimilarity (a b : List Str) : ℚ :=
  if a.dedup.length + b.dedup.length = 0 then 0
  else (((a.dedup.filter (fun x => decide (x ∈ b.dedup))).length : ℚ) * 2) /
    ((a.dedup.length : ℚ) + (b.dedup.length : ℚ))

/-- Display message for an exact match. -/
def msgExact : Str := ("◎ 完全一致です。").data

/-- Display message for a near match. -/
def msgNear : Str := ("○ かなり近い表現です。").data

/-- Display message for a partly matching answer. -/
def msgPartial : Str := ("△ 一部は合っていますが違いがあります。").data

/-- Display message for a different answer. -/
def msgDifferent : Str := ("× 表現が大きく異なります。").data

/-- `evaluateAnswer` from the source: exact-match short circuit, then the
similarity bands with inclusive lower bounds 0.8 and 0.5. -/
def evaluateAnswer (model user : Str) : Str :=
  if normalizeExact model = normalizeExact user then msgExact
  else if (4 / 5 : ℚ) ≤ jaccardSimilarity (tokenize model) (tokenize user) then msgNear
  else if (1 / 2 : ℚ) ≤ jaccardSimilarity (tokenize model) (tokenize user) then msgPartial
  else msgDifferent

/-- The four evaluation labels of the specification's data model. -/
inductive EvaluationLabel where
  | EXACT
  | NEAR
  | PARTIAL
  | DIFFERENT
deriving DecidableEq

/-- The fixed display message bound to each evaluation label. -/
def labelMessage : EvaluationLabel → Str
  | EvaluationLabel.EXACT => msgExact
  | EvaluationLabel.NEAR => msgNear
  | EvaluationLabel.PARTIAL => msgPartial
  | EvaluationLabel.DIFFERENT => msgDifferent

/-- Claim-side description of `evaluate`: EXACT when the normalized forms
agree, otherwise the similarity band. -/
def evaluateSpec (model user : Str) : EvaluationLabel :=
  if normalizeExact model = normalizeExact user then EvaluationLabel.EXACT
  else if (4 / 5 : ℚ) ≤ jaccardSimilarity (tokenize model) (tokenize user) then
    EvaluationLabel.NEAR
  else if (1 / 2 : ℚ) ≤ jaccardSimilarity (tokenize model) (tokenize user) then
    EvaluationLabel.PARTIAL
  else EvaluationLabel.DIFFERENT

/-- One suggested replacement in a grammar finding. -/
structure LTReplacement where
  value : Str
deriving DecidableEq

/-- One grammar finding: a message and its suggested replacements. -/
structure LTMatch where
  message : Str
  replacements : List LTReplacement
deriving DecidableEq

/-- The grammar-check response body shape the engine depends on. The
source field is called matches, which is a reserved word here. -/
structure LTResponse where
  matchList : List LTMatch
deriving DecidableEq

/-- Outcome of reading the response body: `res.json()` either rejects or
yields a parsed `LTResponse`. -/
inductive BodyOutcome where
  | malformed (msg : Str)
  | parsed (r : LTResponse)
deriving DecidableEq

/-- Outcome of the `fetch` call: either the promise rejects at the network
level, or an HTTP response arrives with an `ok` flag, a status code, a
status text and a body. -/
inductive FetchOutcome where
  | reject (msg : Str)
  | response (ok : Bool) (status : Nat) (statusText : Str) (body : BodyOutcome)
deriving DecidableEq

/-- The fixed no-issues sentinel message. -/
def noIssuesMsg : Str := ("文法上の問題は特に見つかりませんでした。").data

/-- The diagnostic text put in front of the HTTP status on a non-success
response. -/
def httpErrorLabel : Str := ("LanguageTool HTTPエラー: ").data

/-- The per-finding formatter of the engine's `checkGrammar`: 1-based index
and message, with the first replacement's value appended after the arrow
separator — but, because the source tests the JavaScript truthiness of the
value, only when that value is a non-empty string. -/
def formatOne (i : Nat) (m : LTMatch) : Str :=
  match m.replacements.head? with
  | some r =>
    if r.value ≠ [] then
      natChars (i + 1) ++ (". ").data ++ m.message ++ (" → ").data ++ r.value
    else natChars (i + 1) ++ (". ").data ++ m.message
  | none => natChars (i + 1) ++ (". ").data ++ m.message

/-- `checkGrammar` of the engine variant: the request carries `sentence`;
the function converts a non-success response into one diagnostic string,
returns the sentinel on zero findings, and formats each finding otherwise.
A rejected fetch (or an unparseable success body) is not caught anywhere in
this variant and surfaces as `Except.error`. -/
def checkGrammar (sentence : Str) (t : FetchOutcome) : Except Str (List Str) :=
  match t with
  | FetchOutcome.reject msg => Except.error msg
  | FetchOutcome.response ok status _ body =>
    if ok = false then Except.ok [httpErrorLabel ++ natChars status]
    else
      match body with
      | BodyOutcome.malformed msg => Except.error msg
      | BodyOutcome.parsed json =>
        if json.matchList.length = 0 then Except.ok [noIssuesMsg]
        else Except.ok (json.matchList.enum.map (fun p => formatOne p.1 p.2))

/-- The suggestion-line label used by the `part_001` variant. -/
def suggestionLabel : Str := ("   → Suggestion: ").data

/-- One finding of the `part_001` variant: the indexed message line, plus a
separate suggestion line whenever the finding has at least one replacement
(the suggestion template string is never empty, so its truthiness test
reduces to the replacements list being non-empty). -/
def formatMatch (idx : Nat) (m : LTMatch) : List Str :=
  match m.replacements with
  | [] => [natChars (idx + 1) ++ (". ").data ++ m.message]
  | r :: _ =>
    [natChars (idx + 1) ++ (". ").data ++ m.message, suggestionLabel ++ r.value]

/-- `formatMatches` of the `part_001` variant. -/
def formatMatches (ms : List LTMatch) : List Str :=
  if ms.length = 0 then [noIssuesMsg]
  else (ms.enum.map (fun p => formatMatch p.1 p.2)).flatten

/-- `checkGrammar` of the `part_001` variant: same transport handling, but
the non-success diagnostic also embeds the status text, and successful
bodies are formatted by `formatMatches`. -/
def checkGrammarV2 (sentence : Str) (t : FetchOutcome) : Except Str (List Str) :=
  match t with
  | FetchOutcome.reject msg => Except.error msg
  | FetchOutcome.response ok status statusText body =>
    if ok = false then
      Except.ok [httpErrorLabel ++ natChars status ++ [ ' ' ] ++ statusText]
    else
      match body with
      | BodyOutcome.malformed msg => Except.error msg
      | BodyOutcome.parsed json => Except.ok (formatMatches json.matchList)

/-- Snapshot of one completed cycle, shown in the upper half of a frame. -/
structure LastResult where
  jpn : Str
  eng : Str
  userAnswer : Str
  evalText : Str
  grammarMessages : List Str
deriving DecidableEq

/-- One displayable frame: the previous cycle's result (if any) and the
current prompt. -/
structure FrameState where
  lastResult : Option LastResult
  current : CorpusPair
deriving DecidableEq

/-- The engine's session state: the React state cells of the animated
variant of the app component. -/
structure Session where
  corpus : List CorpusPair
  frame : Option FrameState
  userAnswer : Str
  checking : Bool
  animating : Bool
  animFrom : Option FrameState
  animTo : Option FrameState
deriving DecidableEq

/-- `handleCheck` of the engine variant, run to completion: early return
without a frame or on a blank answer; otherwise set the checking flag,
evaluate, await the grammar check (a rejection propagates uncaught, leaving
the checking flag set), then either abort when no next pair can be sampled
(clearing the checking flag and touching nothing else) or stage the
from/to transition pair and start animating. -/
def handleCheck (s : Session) (t : FetchOutcome) (i : Nat) : Session :=
  match s.frame with
  | none => s
  | some frame =>
    if trim s.userAnswer = [] then s
    else
      let evalText := evaluateAnswer frame.current.eng s.userAnswer
      match checkGrammar s.userAnswer t with
      | Except.error _ => { s with checking := true }
      | Except.ok gm =>
        match pickNextQuestion s.corpus i with
        | none => { s with checking := false }
        | some q =>
          { s with
            checking := true
            animating := true
            animFrom := some frame
            animTo := some
              { lastResult := some
                  { jpn := frame.current.jpn
                    eng := frame.current.eng
                    userAnswer := s.userAnswer
                    evalText := evalText
                    grammarMessages := gm }
                current := q } }

/-- The user-facing submit pathway of the engine variant: while a
transition is animating the interactive frame is not mounted at all, the
keydown handler fires `handleCheck` only when the checking flag is clear,
and the submit button is disabled while checking. -/
def submit (s : Session) (t : FetchOutcome) (i : Nat) : Session :=
  if s.animating then s
  else if s.checking then s
  else handleCheck s t i

/-- Session state of the `src/App.tsx` variant (no animation; the result
lives in a dedicated `lastResult` cell). -/
structure SessionSrc where
  corpus : List CorpusPair
  current : Option CorpusPair
  lastResult : Option LastResult
  userAnswer : Str
  checking : Bool
deriving DecidableEq

/-- `handleCheck` of the `src/App.tsx` variant, run to completion: after
the early returns it scores, awaits the grammar check, stores the result
and advances to the next question, clearing the input buffer. It contains
no re-entrancy guard of its own. -/
def handleCheckSrc (s : SessionSrc) (t : FetchOutcome) (i : Nat) : SessionSrc :=
  match s.current with
  | none => s
  | some cur =>
    if trim s.userAnswer = [] then s
    else
      let evalText := evaluateAnswer cur.eng s.userAnswer
      match checkGrammar s.userAnswer t with
      | Except.error _ => { s with checking := true }
      | Except.ok gm =>
        let s2 := { s with
          checking := true
          lastResult := some
            { jpn := cur.jpn
              eng := cur.eng
              userAnswer := s.userAnswer
              evalText := evalText
              grammarMessages := gm } }
        if s2.corpus.length = 0 then { s2 with checking := false }
        else
          { s2 with
            current := randomPair s2.corpus i
            userAnswer := []
            checking := false }

/-- The Ctrl+Enter keydown pathway of the `src/App.tsx` variant: it calls
`handleCheck` directly, without consulting the checking flag. -/
def onKeyDownSrc (s : SessionSrc) (t : FetchOutcome) (i : Nat) : SessionSrc :=
  handleCheckSrc s t i

/-- The measurement-failure fallback block of the transition effect:
commit the target frame, stop animating, clear the staged pair, reset the
input buffer, clear the checking flag — immediately, with no timeline. -/
def fallbackCommit (s : Session) : Session :=
  { s with
    frame := s.animTo
    animating := false
    animFrom := none
    animTo := none
    userAnswer := []
    checking := false }

/-- The timeline completion callback of the transition effect: the same
six state updates as the fallback block. -/
def timedOnComplete (s : Session) : Session :=
  { s with
    frame := s.animTo
    animating := false
    animFrom := none
    animTo := none
    userAnswer := []
    checking := false }

/-- The transition layout effect: does nothing unless a transition is
staged; with a measurable height it starts the timeline (whose completion
later applies `timedOnComplete`), and with height zero it falls back to an
immediate commit. -/
def animationEffect (s : Session) (h : Nat) : Session :=
  if s.animating = false then s
  else
    match s.animFrom, s.animTo with
    | some _, some _ => if h = 0 then fallbackCommit s else s
    | _, _ => s

/-- A transport outcome whose grammar check succeeds with zero findings. -/
def outcomeOk : FetchOutcome :=
  FetchOutcome.response true 200 [] (BodyOutcome.parsed { matchList := [] })

/-- A concrete corpus pair for the concrete session states below. -/
def pairHi : CorpusPair := { eng := ("Hi").data, jpn := ("やあ").data }

/-- An engine session captured mid-check (grammar check outstanding). -/
def sessionEngineBusy : Session :=
  { corpus := [pairHi]
    frame := some { lastResult := none, current := pairHi }
    userAnswer := ("hi").data
    checking := true
    animating := false
    animFrom := none
    animTo := none }

/-- A `src/App.tsx` session captured mid-check (grammar check
outstanding), with the buffer still holding the submitted answer. -/
def sessionSrcBusy : SessionSrc :=
  { corpus := [pairHi]
    current := some pairHi
    lastResult := none
    userAnswer := ("hi").data
    checking := true }

/-- The initial frame used by the concrete sessions below. -/
def frameHi : FrameState := { lastResult := none, current := pairHi }

/-- An engine session whose corpus is empty at sampling time. -/
def sessionEmptyCorpus : Session :=
  { corpus := []
    frame := some frameHi
    userAnswer := ("hi").data
    checking := false
    animating := false
    animFrom := none
    animTo := none }

/-- A completed-cycle snapshot for the concrete transition below. -/
def resultHi : LastResult :=
  { jpn := pairHi.jpn
    eng := pairHi.eng
    userAnswer := ("hi").data
    evalText := msgExact
    grammarMessages := [noIssuesMsg] }

/-- The target frame of the concrete transition below. -/
def frameNext : FrameState := { lastResult := some resultHi, current := pairHi }

/-- An engine session captured mid-transition, with a staged from/to pair. -/
def sessionMidTransition : Session :=
  { corpus := [pairHi]
    frame := some frameHi
    userAnswer := ("hi").data
    checking := true
    animating := true
    animFrom := some frameHi
    animTo := some frameNext }

/-! ### Helper lemmas -/

/-- Lowercasing never turns a character into whitespace or back. -/
theorem ws_toLower (c : Char) : jsWhitespace (jsToLower c) = jsWhitespace c := by
  cases h : ucPairs.find? (fun p => decide (p.1 = c)) with
  | none =>
    have e : jsToLower c = c := by unfold jsToLower; rw [h]
    rw [e]
  | some p =>
    have e : jsToLower c = p.2 := by unfold jsToLower; rw [h]
    have hmem : p ∈ ucPairs := List.mem_of_find?_eq_some h
    have hpc : p.1 = c := by simpa using List.find?_some h
    have hall : ∀ q ∈ ucPairs, jsWhitespace q.1 = false ∧ jsWhitespace q.2 = false := by
      decide
    rw [e, (hall p hmem).2, ← hpc, (hall p hmem).1]

/-- The whitespace splitter commutes with lowercasing the text. -/
theorem splitWsGo_map (l : List Char) : ∀ (sk : Bool) (cur : List Char),
    splitWsGo sk (cur.map jsToLower) (l.map jsToLower) =
      (splitWsGo sk cur l).map (fun w => w.map jsToLower) := by
  induction l with
  | nil => intro sk cur; cases sk <;> simp [splitWsGo, List.map_reverse]
  | cons c rest ih =>
    intro sk cur
    have ih1 := ih true []
    have ih2 := ih false [c]
    have ih3 := ih false (c :: cur)
    simp only [List.map] at ih1 ih2 ih3
    cases sk <;> by_cases hc : jsWhitespace c <;>
      simp [splitWsGo, ws_toLower, hc, ih1, ih2, ih3, List.map_reverse]

/-- `splitWs` of a lowercased text is the lowercasing of the split chunks. -/
theorem splitWs_map (l : List Char) :
    splitWs (l.map jsToLower) = (splitWs l).map (fun w => w.map jsToLower) := by
  simpa [splitWs] using splitWsGo_map l false []

/-- Dropping empty chunks before or after a chunk transformation that
preserves emptiness gives the same filtered result. -/
theorem filter_map_filter_empty (g : Str → Str) (hg : g [] = []) (M : List Str) :
    ((M.map g).filter (fun w => decide (w ≠ []))) =
      (((M.filter (fun w => decide (w ≠ []))).map g).filter (fun w => decide (w ≠ []))) := by
  induction M with
  | nil => rfl
  | cons m rest ih =>
    simp only [List.map_cons, List.filter_cons, ne_eq, decide_not] at ih ⊢
    by_cases hm : m = []
    · subst hm
      simp [hg, ih]
    · by_cases hgm : g m = [] <;> simp [hm, hgm, ih]

/-- A list all of whose elements satisfy the predicate is fully dropped. -/
theorem dropWhile_eq_nil_of_all (p : Char → Bool) (l : List Char)
    (h : ∀ c ∈ l, p c = true) : l.dropWhile p = [] := by
  induction l with
  | nil => rfl
  | cons c rest ih =>
    have hc := h c (List.mem_cons_self c rest)
    simp only [List.dropWhile_cons, hc, if_true]
    exact ih (fun d hd => h d (List.mem_cons_of_mem c hd))

/-- If `dropWhile` removes everything, every element satisfied the
predicate. -/
theorem all_of_dropWhile_eq_nil (p : Char → Bool) (l : List Char)
    (h : l.dropWhile p = []) : ∀ c ∈ l, p c = true := by
  induction l with
  | nil => simp
  | cons c rest ih =>
    by_cases hc : p c = true
    · rw [List.dropWhile_cons, if_pos hc] at h
      intro d hd
      rcases List.mem_cons.mp hd with h1 | h1
      · rw [h1]; exact hc
      · exact ih h d h1
    · rw [List.dropWhile_cons, if_neg hc] at h
      exact absurd h (List.cons_ne_nil c rest)

/-- Every element of `takeWhile` satisfies the predicate. -/
theorem all_of_mem_takeWhile (p : Char → Bool) (l : List Char) :
    ∀ c ∈ l.takeWhile p, p c = true := by
  induction l with
  | nil => simp
  | cons c rest ih =>
    by_cases hc : p c = true
    · rw [List.takeWhile_cons, if_pos hc]
      intro d hd
      rcases List.mem_cons.mp hd with h1 | h1
      · rw [h1]; exact hc
      · exact ih d h1
    · rw [List.takeWhile_cons, if_neg hc]
      simp

/-- A list of whitespace characters trims to the empty string. -/
theorem trim_eq_nil_of_all (l : Str) (h : ∀ c ∈ l, jsWhitespace c = true) :
    trim l = [] := by
  unfold trim
  rw [dropWhile_eq_nil_of_all jsWhitespace l h]
  rfl

/-- If a string trims to empty, all its characters are whitespace. -/
theorem all_of_trim_eq_nil (l : Str) (h : trim l = []) :
    ∀ c ∈ l, jsWhitespace c = true := by
  unfold trim at h
  rw [List.reverse_eq_nil_iff] at h
  have h3 : ∀ c ∈ l.dropWhile jsWhitespace, jsWhitespace c = true := by
    intro c hc
    exact all_of_dropWhile_eq_nil jsWhitespace _ h c (List.mem_reverse.mpr hc)
  intro c hc
  have hc2 : c ∈ l.takeWhile jsWhitespace ++ l.dropWhile jsWhitespace := by
    rw [List.takeWhile_append_dropWhile]; exact hc
  rcases List.mem_append.mp hc2 with h4 | h4
  · exact all_of_mem_takeWhile jsWhitespace l c h4
  · exact h3 c h4

/-- Every character of a piece produced by the separator splitter comes
from the accumulator or from the remaining input. -/
theorem mem_splitSepGo (sep : Char) :
    ∀ (l cur piece : List Char), piece ∈ splitSepGo sep cur l →
      ∀ c ∈ piece, c ∈ cur ∨ c ∈ l := by
  intro l
  induction l with
  | nil =>
    intro cur piece hp c hc
    simp only [splitSepGo, List.mem_singleton] at hp
    subst hp
    exact Or.inl (List.mem_reverse.mp hc)
  | cons d rest ih =>
    intro cur piece hp c hc
    by_cases hd : d = sep
    · rw [splitSepGo, if_pos hd] at hp
      rcases List.mem_cons.mp hp with hp1 | hp1
      · subst hp1; exact Or.inl (List.mem_reverse.mp hc)
      · rcases ih [] piece hp1 c hc with h | h
        · exact absurd h (List.not_mem_nil c)
        · exact Or.inr (List.mem_cons_of_mem d h)
    · rw [splitSepGo, if_neg hd] at hp
      rcases ih (d :: cur) piece hp c hc with h | h
      · rcases List.mem_cons.mp h with h1 | h1
        · exact Or.inr (by rw [h1]; exact List.mem_cons_self d rest)
        · exact Or.inl h1
      · exact Or.inr (List.mem_cons_of_mem d h)

/-- `getD` yields a member of the list or the default. -/
theorem getD_mem_or_default (l : List Str) (n : Nat) :
    l.getD n [] ∈ l ∨ l.getD n [] = [] := by
  induction l generalizing n with
  | nil => right; cases n <;> rfl
  | cons x rest ih =>
    cases n with
    | zero => left; simp [List.getD_cons_zero]
    | succ m =>
      rw [List.getD_cons_succ]
      rcases ih m with h | h
      · exact Or.inl (List.mem_cons_of_mem x h)
      · exact Or.inr h

/-- A whitespace-only line is rejected by `lineAccept`: all its fields trim
to empty. -/
theorem lineAccept_blank (line : Str) (h : trim line = []) : lineAccept line = none := by
  have hall : ∀ c ∈ line, jsWhitespace c = true := all_of_trim_eq_nil line h
  have hfield : ∀ n : Nat, trim ((splitSep '\t' line).getD n []) = [] := by
    intro n
    apply trim_eq_nil_of_all
    intro c hc
    rcases getD_mem_or_default (splitSep '\t' line) n with hmem | hnil
    · rcases mem_splitSepGo '\t' line [] _ hmem c hc with hcur | hl
      · exact absurd hcur (List.not_mem_nil c)
      · exact hall c hl
    · rw [hnil] at hc; exact absurd hc (List.not_mem_nil c)
  unfold lineAccept
  rw [if_neg]
  intro hcond
  exact hcond.2.1 (hfield 1)

/-- The loop of `parseCorpus` is the `filterMap` of the per-line
acceptance function: the blank-line shortcut is redundant because a
whitespace-only line can never contribute a record. -/
theorem parseCorpusLines_eq (lines : List Str) :
    parseCorpusLines lines = lines.filterMap lineAccept := by
  induction lines with
  | nil => rfl
  | cons line rest ih =>
    rw [List.filterMap_cons]
    by_cases hb : trim line = []
    · rw [lineAccept_blank line hb]
      simp [parseCorpusLines, hb, ih]
    · by_cases h4 : 4 ≤ (splitSep '\t' line).length
      · by_cases he : trim ((splitSep '\t' line).getD 1 []) ≠ [] ∧
            trim ((splitSep '\t' line).getD 3 []) ≠ []
        · have hacc : lineAccept line = some
              { eng := trim ((splitSep '\t' line).getD 1 [])
                jpn := trim ((splitSep '\t' line).getD 3 []) } := by
            unfold lineAccept; rw [if_pos ⟨h4, he.1, he.2⟩]
          rw [hacc]
          simp only [List.getD_eq_getElem?_getD] at he
          simp [parseCorpusLines, hb, h4, he.1, he.2, ih]
        · have hacc : lineAccept line = none := by
            unfold lineAccept; rw [if_neg]
            intro hcond
            exact he ⟨hcond.2.1, hcond.2.2⟩
          rw [hacc]
          simp only [List.getD_eq_getElem?_getD] at he
          simp [parseCorpusLines, hb, h4, ih]
          intro h1
          by_contra h3
          exact he ⟨h1, h3⟩
      · have hacc : lineAccept line = none := by
          unfold lineAccept; rw [if_neg]
          intro hcond
          exact h4 hcond.1
        rw [hacc]
        simp [parseCorpusLines, hb, h4, ih]

/-! ### Claim theorems -/

/-- Claim C3: for every input text, `parseCorpus` returns exactly the
pairs of trimmed fields 1 and 3 of those lines that have at least four
tab-separated fields with both required fields non-empty after trimming,
in the order the lines appear; all other lines (including blank ones)
contribute nothing, and no input is an error. -/
theorem parseCorpus_filter_spec (tsv : Str) :
    parseCorpus tsv = (splitLines tsv).filterMap lineAccept :=
  parseCorpusLines_eq (splitLines tsv)

/-- The intersection count of the source (distinct elements of the first
list that the second contains) is the card of the finset intersection. -/
theorem dedup_filter_length (a b : List Str) :
    (a.dedup.filter (fun x => decide (x ∈ b.dedup))).length =
      (a.toFinset ∩ b.toFinset).card := by
  have hnd : (a.dedup.filter (fun x => decide (x ∈ b.dedup))).Nodup :=
    (List.nodup_dedup a).filter _
  rw [← List.toFinset_card_of_nodup hnd]
  congr 1
  ext x
  simp [List.mem_toFinset, List.mem_filter, List.mem_dedup, Finset.mem_inter]

/-- `jaccardSimilarity` as the set formula of the specification. -/
theorem jaccard_char (a b : List Str) :
    jaccardSimilarity a b =
      if a.toFinset.card + b.toFinset.card = 0 then 0
      else (((a.toFinset ∩ b.toFinset).card : ℚ) * 2) /
        ((a.toFinset.card : ℚ) + (b.toFinset.card : ℚ)) := by
  unfold jaccardSimilarity
  rw [dedup_filter_length]
  rw [show a.dedup.length = a.toFinset.card from (List.card_toFinset a).symm,
    show b.dedup.length = b.toFinset.card from (List.card_toFinset b).symm]

/-- The similarity score is never negative. -/
theorem jaccard_nonneg (a b : List Str) : 0 ≤ jaccardSimilarity a b := by
  rw [jaccard_char]
  split
  · exact le_refl 0
  · apply div_nonneg
    · positivity
    · positivity

/-- The similarity score never exceeds one. -/
theorem jaccard_le_one (a b : List Str) : jaccardSimilarity a b ≤ 1 := by
  rw [jaccard_char]
  split
  · exact zero_le_one
  · rename_i h
    have hpos : (0 : ℚ) < (a.toFinset.card : ℚ) + (b.toFinset.card : ℚ) := by
      have h1 : 0 < a.toFinset.card + b.toFinset.card := Nat.pos_of_ne_zero h
      exact_mod_cast h1
    rw [div_le_one hpos]
    have h1 : (a.toFinset ∩ b.toFinset).card ≤ a.toFinset.card :=
      Finset.card_le_card Finset.inter_subset_left
    have h3 : (a.toFinset ∩ b.toFinset).card * 2 ≤
        a.toFinset.card + b.toFinset.card := by
      have h2 : (a.toFinset ∩ b.toFinset).card ≤ b.toFinset.card :=
        Finset.card_le_card Finset.inter_subset_right
      omega
    exact_mod_cast h3

/-- Two non-empty lists with the same distinct-token set score exactly 1. -/
theorem jaccard_eq_one_of_eq_sets (a b : List Str) (ha : a ≠ [])
    (hab : a.toFinset = b.toFinset) : jaccardSimilarity a b = 1 := by
  have hcard : a.toFinset.card ≠ 0 := by
    intro hc
    exact ha ((List.toFinset_eq_empty_iff a).mp (Finset.card_eq_zero.mp hc))
  have hcard2 : b.toFinset.card ≠ 0 := by rw [← hab]; exact hcard
  rw [jaccard_char, hab, Finset.inter_self]
  rw [if_neg (show ¬(b.toFinset.card + b.toFinset.card = 0) from fun h => hcard2 (by omega))]
  have hQ : (b.toFinset.card : ℚ) ≠ 0 := Nat.cast_ne_zero.mpr hcard2
  field_simp
  ring

/-- Claim C4: `similarity` equals `2·|A∩B| / (|A|+|B|)` on the sets A, B of
distinct tokens, is 0 (not 1) when both are empty, always lies in [0,1],
equals 1 for two non-empty sequences with identical token sets, and in
particular is 1 on the pair of the two-token lists of the claim. -/
theorem jaccardSimilarity_spec (a b : List Str) :
    jaccardSimilarity a b =
      (if a.toFinset.card + b.toFinset.card = 0 then 0
       else (((a.toFinset ∩ b.toFinset).card : ℚ) * 2) /
         ((a.toFinset.card : ℚ) + (b.toFinset.card : ℚ))) ∧
    0 ≤ jaccardSimilarity a b ∧ jaccardSimilarity a b ≤ 1 ∧
    (a ≠ [] → a.toFinset = b.toFinset → jaccardSimilarity a b = 1) ∧
    jaccardSimilarity [("a").data, ("b").data] [("a").data, ("b").data] = 1 ∧
    jaccardSimilarity ([] : List Str) ([] : List Str) = 0 :=
  ⟨jaccard_char a b, jaccard_nonneg a b, jaccard_le_one a b,
    fun ha hab => jaccard_eq_one_of_eq_sets a b ha hab,
    jaccard_eq_one_of_eq_sets _ _ (by decide) rfl, rfl⟩

/-- Witness for claim C4: the identical-sets conjunct applied at a
concrete one-token pair. -/
theorem jaccardSimilarity_spec_witness :
    jaccardSimilarity [("a").data] [("a").data] = 1 :=
  (jaccardSimilarity_spec [("a").data] [("a").data]).2.2.2.1 (by decide) rfl

/-- Claim C10: `jaccardSimilarity` is symmetric in its two arguments. -/
theorem jaccardSimilarity_symm (a b : List Str) :
    jaccardSimilarity a b = jaccardSimilarity b a := by
  rw [jaccard_char a b, jaccard_char b a, Finset.inter_comm b.toFinset a.toFinset,
    Nat.add_comm b.toFinset.card a.toFinset.card,
    add_comm ((b.toFinset.card : ℚ)) ((a.toFinset.card : ℚ))]

/-- Claim C1: `evaluateAnswer` renders the label computed by the claim's
band description: EXACT whenever the normalized forms agree (regardless of
token overlap), and otherwise NEAR, PARTIAL or DIFFERENT according to the
similarity score with inclusive lower bounds 4/5 and 1/2. -/
theorem evaluateAnswer_bands (model user : Str) :
    evaluateAnswer model user = labelMessage (evaluateSpec model user) ∧
    (normalizeExact model = normalizeExact user →
      evaluateSpec model user = EvaluationLabel.EXACT) ∧
    (normalizeExact model ≠ normalizeExact user →
      ((4 / 5 : ℚ) ≤ jaccardSimilarity (tokenize model) (tokenize user) →
        evaluateSpec model user = EvaluationLabel.NEAR) ∧
      ((1 / 2 : ℚ) ≤ jaccardSimilarity (tokenize model) (tokenize user) ∧
          jaccardSimilarity (tokenize model) (tokenize user) < 4 / 5 →
        evaluateSpec model user = EvaluationLabel.PARTIAL) ∧
      (jaccardSimilarity (tokenize model) (tokenize user) < 1 / 2 →
        evaluateSpec model user = EvaluationLabel.DIFFERENT)) := by
  refine ⟨?_, ?_, ?_⟩
  · unfold evaluateAnswer evaluateSpec
    split_ifs <;> rfl
  · intro h
    unfold evaluateSpec
    rw [if_pos h]
  · intro h
    refine ⟨?_, ?_, ?_⟩
    · intro hs
      unfold evaluateSpec
      rw [if_neg h, if_pos hs]
    · intro hs
      unfold evaluateSpec
      rw [if_neg h, if_neg (not_le.mpr hs.2), if_pos hs.1]
    · intro hlt
      have h45 : jaccardSimilarity (tokenize model) (tokenize user) < 4 / 5 :=
        lt_trans hlt (by norm_num)
      unfold evaluateSpec
      rw [if_neg h, if_neg (not_le.mpr h45), if_neg (not_le.mpr hlt)]

/-- Witness for claim C1: the exact-match branch at the specification's
own sample pair, whose normalized forms agree. -/
theorem evaluateAnswer_bands_witness :
    evaluateSpec (("Hello, World!").data) (("hello world").data) =
      EvaluationLabel.EXACT :=
  (evaluateAnswer_bands (("Hello, World!").data) (("hello world").data)).2.1 (by decide)

/-- Counterexample to claim C5 as stated: a network-level rejection of the
request is a transport outcome on which `checkGrammar` raises to its
caller (the promise rejection propagates uncaught) instead of returning a
diagnostic sequence. -/
theorem checkGrammar_reject_raises :
    checkGrammar (("hello").data) (FetchOutcome.reject (("Failed to fetch").data)) =
      Except.error (("Failed to fetch").data) := rfl

/-- Claim C5 (amended): whenever the request yields an HTTP response,
`checkGrammar` (and the `part_001` variant) returns normally: every
non-success response becomes the single-element diagnostic embedding the
failure status — never a throw — and a success response with a parsed
body always yields a normal result. -/
theorem checkGrammar_total_on_responses (sentence : Str) (status : Nat)
    (statusText : Str) (body : BodyOutcome) (r : LTResponse) :
    checkGrammar sentence (FetchOutcome.response false status statusText body) =
      Except.ok [httpErrorLabel ++ natChars status] ∧
    (∃ out, checkGrammar sentence
      (FetchOutcome.response true status statusText (BodyOutcome.parsed r)) =
        Except.ok out) ∧
    checkGrammarV2 sentence (FetchOutcome.response false status statusText body) =
      Except.ok [httpErrorLabel ++ natChars status ++ [ ' ' ] ++ statusText] ∧
    (∃ out, checkGrammarV2 sentence
      (FetchOutcome.response true status statusText (BodyOutcome.parsed r)) =
        Except.ok out) := by
  refine ⟨rfl, ?_, rfl, ⟨formatMatches r.matchList, rfl⟩⟩
  by_cases h : r.matchList.length = 0
  · exact ⟨[noIssuesMsg], by simp [checkGrammar, h]⟩
  · exact ⟨r.matchList.enum.map (fun p => formatOne p.1 p.2), by simp [checkGrammar, h]⟩

/-- Counterexample to claim C6 as stated: in the engine variant a finding
whose first replacement has an empty value yields the indexed message
alone (no separator, because the source tests JavaScript truthiness of the
value), and in the `part_001` variant a finding with a replacement
produces two strings, not one. -/
theorem checkGrammar_format_counter :
    checkGrammar (("s").data)
      (FetchOutcome.response true 200 []
        (BodyOutcome.parsed
          (LTResponse.mk [LTMatch.mk (("msg").data) [LTReplacement.mk []]]))) =
      Except.ok [("1. msg").data] ∧
    ("1. msg").data ≠ ("1. msg → ").data ∧
    formatMatches [LTMatch.mk (("msg").data) [LTReplacement.mk (("fix").data)]] =
      [("1. msg").data, suggestionLabel ++ ("fix").data] ∧
    (formatMatches
        [LTMatch.mk (("msg").data) [LTReplacement.mk (("fix").data)]]).length = 2 :=
  ⟨rfl, by decide, rfl, rfl⟩

/-- The `part_001` formatter emits one line per finding plus one extra
line per finding carrying at least one replacement. -/
theorem formatMatch_flatten_length (ms : List LTMatch) : ∀ k : Nat,
    (((List.enumFrom k ms).map (fun p => formatMatch p.1 p.2)).flatten).length =
      ms.length + (ms.filter (fun m => decide (m.replacements ≠ []))).length := by
  induction ms with
  | nil => intro k; rfl
  | cons m rest ih =>
    intro k
    rw [List.enumFrom_cons, List.map_cons, List.flatten_cons, List.length_append,
      ih (k + 1), List.filter_cons]
    cases hrep : m.replacements with
    | nil =>
      simp [formatMatch, hrep]
      omega
    | cons r rs =>
      simp [formatMatch, hrep]
      omega

/-- Claim C6 (amended): on a successful response with at least one
finding, the engine's `checkGrammar` returns exactly one string per
finding in server order — the 1-based index and message, with the first
replacement's value appended after the separator exactly when that value
is non-empty, and the indexed message alone when there is no replacement —
while the `part_001` variant emits the indexed message plus a separate
suggestion line per finding with a replacement, so its output length is
the number of findings plus the number of findings with replacements. -/
theorem checkGrammar_success_format (sentence : Str) (status : Nat)
    (statusText : Str) (r : LTResponse) (hne : r.matchList ≠ []) :
    checkGrammar sentence
      (FetchOutcome.response true status statusText (BodyOutcome.parsed r)) =
      Except.ok (r.matchList.enum.map (fun p => formatOne p.1 p.2)) ∧
    (r.matchList.enum.map (fun p => formatOne p.1 p.2)).length = r.matchList.length ∧
    (∀ i m, LTMatch.replacements m = [] →
      formatOne i m = natChars (i + 1) ++ (". ").data ++ LTMatch.message m) ∧
    (∀ i m rep rs, LTMatch.replacements m = rep :: rs → LTReplacement.value rep ≠ [] →
      formatOne i m = natChars (i + 1) ++ (". ").data ++ LTMatch.message m ++
        (" → ").data ++ LTReplacement.value rep) ∧
    (formatMatches r.matchList).length =
      r.matchList.length +
        (r.matchList.filter (fun m => decide (m.replacements ≠ []))).length := by
  have hlen : ¬r.matchList.length = 0 := fun h0 => hne (List.length_eq_zero.mp h0)
  refine ⟨?_, ?_, ?_, ?_, ?_⟩
  · simp [checkGrammar, hlen]
  · simp
  · intro i m hm
    simp [formatOne, hm]
  · intro i m rep rs hm hv
    simp only [formatOne, hm, List.head?_cons]
    rw [if_pos hv]
  · unfold formatMatches
    rw [if_neg hlen]
    have h := formatMatch_flatten_length r.matchList 0
    simpa [List.enum] using h

/-- Witness for claim C6: the amended format theorem applied to a
one-finding response without replacements. -/
theorem checkGrammar_success_format_witness :
    checkGrammar (("s").data)
      (FetchOutcome.response true 200 []
        (BodyOutcome.parsed (LTResponse.mk [LTMatch.mk (("m").data) []]))) =
      Except.ok [("1. m").data] := by
  have h := checkGrammar_success_format (("s").data) 200 []
    (LTResponse.mk [LTMatch.mk (("m").data) []]) (by decide)
  rw [h.1]
  rfl

/-- Claim C2 at the failing input: the engine's submit pathway is a strict
no-op while a check is outstanding, but the `src/App.tsx` keydown pathway
lacks the checking guard, so the redundant call re-runs the whole cycle
and here ends up clearing the input buffer. -/
theorem submit_reentrancy_check :
    submit sessionEngineBusy outcomeOk 0 = sessionEngineBusy ∧
    sessionSrcBusy.checking = true ∧
    (onKeyDownSrc sessionSrcBusy outcomeOk 0).userAnswer ≠ sessionSrcBusy.userAnswer := by
  refine ⟨rfl, rfl, ?_⟩
  decide

/-- Claim C8: when the grammar check resolved but sampling the next pair
fails on the empty corpus, `handleCheck` aborts the advance atomically:
the frame, the staged transition and the input buffer are untouched, the
just-computed grammar result is discarded, and only the checking flag is
cleared, leaving the session back in its ready state. -/
theorem handleCheck_empty_corpus_abort (s : Session) (t : FetchOutcome) (i : Nat)
    (f : FrameState) (gm : List Str) (h1 : s.frame = some f)
    (h2 : trim s.userAnswer ≠ []) (h3 : checkGrammar s.userAnswer t = Except.ok gm)
    (h4 : s.corpus = []) :
    handleCheck s t i = { s with checking := false } := by
  unfold handleCheck
  rw [h1]
  simp only [if_neg h2, h3, h4]
  simp [pickNextQuestion]

/-- Witness for claim C8: the abort at a concrete empty-corpus session. -/
theorem handleCheck_empty_corpus_abort_witness :
    handleCheck sessionEmptyCorpus outcomeOk 0 =
      { sessionEmptyCorpus with checking := false } :=
  handleCheck_empty_corpus_abort sessionEmptyCorpus outcomeOk 0 frameHi
    [noIssuesMsg] rfl (by decide) rfl rfl

/-- Claim C9: the measurement-failure fallback and the timed completion
callback perform the identical state commit — the current frame becomes
the staged target frame, the input buffer is reset, the checking flag is
cleared and the staged from/to pair is cleared — and with height zero the
layout effect applies that commit immediately. -/
theorem transition_fallback_eq_timed (s : Session) (toF : FrameState)
    (h1 : s.animTo = some toF) :
    fallbackCommit s = timedOnComplete s ∧
    (fallbackCommit s).frame = some toF ∧
    (fallbackCommit s).userAnswer = [] ∧
    (fallbackCommit s).checking = false ∧
    (fallbackCommit s).animFrom = none ∧
    (fallbackCommit s).animTo = none ∧
    (s.animating = true → ∀ fromF, s.animFrom = some fromF →
      animationEffect s 0 = fallbackCommit s) := by
  refine ⟨rfl, h1, rfl, rfl, rfl, rfl, ?_⟩
  intro ha fromF hf
  unfold animationEffect
  rw [ha, hf, h1]
  rfl

/-- Witness for claim C9: the fallback commit at a concrete
mid-transition session. -/
theorem transition_fallback_eq_timed_witness :
    animationEffect sessionMidTransition 0 = fallbackCommit sessionMidTransition :=
  (transition_fallback_eq_timed sessionMidTransition frameNext
    rfl).2.2.2.2.2.2 rfl frameHi rfl

/-- Claim C7: for every input text, `tokenize` equals the claim's pipeline
(split on runs of whitespace, lowercase each chunk, strip every character
that is not an ASCII letter or one of the two apostrophe forms, drop
chunks that become empty), and on the sample input the result is the three
expected tokens. -/
theorem tokenize_spec_eq (text : Str) :
    tokenize text = tokenizeSpec text ∧
      tokenize (("It").data ++ [apos] ++ ("s a test.").data) =
        [("it").data ++ [apos] ++ ("s").data, ("a").data, ("test").data] := by
  constructor
  · unfold tokenize tokenizeSpec wsChunks
    rw [splitWs_map, List.map_map]
    exact filter_map_filter_empty
      ((fun (w : Str) => w.filter isTokenChar) ∘ (fun (w : Str) => w.map jsToLower))
      (by rfl) (splitWs text)
  · decide

end Endless
